import Mathlib

/-!
Shallow embedding of `password-store-rs` (`src/lib.rs`): a client library that
drives the external `gopass` process over two transports, a one-shot CLI
invocation (`exec_pass`) and a length-prefixed JSON channel (`gopass_ipc`),
plus the five public operations of `PasswordStore`.

Process spawning is modelled by making every post-spawn code path a pure
function of the captured process `Output` (stdout bytes, stderr bytes, exit
status); the bytes written to the child's stdin and the argv of the spawned
process are modelled by separate pure functions.  Bytes are `Nat` (values
< 256 in every reachable state), and UTF-8 decoding/encoding is modelled
explicitly.  A Rust panic (out-of-bounds slice) is modelled by an `Option`
result being `none`.
-/

namespace PassStore

set_option maxRecDepth 20000
set_option linter.unusedVariables false

/-- Model of the `json` crate's `JsonValue` tree.  `Short` and `String` are
collapsed into `str` (they only differ in storage); `Number` is restricted to
the integers, which covers every value this library ever builds (the only
number it sends is the `i32` length in `generate`) and every response field it
consumes (only strings are consumed). -/
inductive JsonValue where
  | null
  | bool (b : Bool)
  | num (n : Int)
  | str (s : String)
  | arr (elems : List JsonValue)
  | obj (members : List (String × JsonValue))

/-- Model of the `json` crate's member access on `JsonValue`: an `Object`
yields the member stored under `key` (if any); any other node has no members. -/
def json_member : JsonValue → String → Option JsonValue
  | .obj ms, key => ms.lookup key
  | _, _ => none

/-- Model of the `json` crate's `value[key]` indexing: the member stored under
`key`, or `Null` when the value is not an object or has no such member. -/
def json_index (j : JsonValue) (key : String) : JsonValue :=
  (json_member j key).getD .null

/-- Model of `JsonValue::as_str`: `Some` exactly on string nodes. -/
def as_str : JsonValue → Option String
  | .str s => some s
  | _ => none

/-- Model of `JsonValue::take_string`: like `as_str`, it succeeds exactly on
string nodes (the mutation it performs on the receiver is unobservable here
because the response value is dropped right after). -/
def take_string : JsonValue → Option String
  | .str s => some s
  | _ => none

/-- Model of `Error` from `src/lib.rs`.  The payloads of the wrapped foreign
errors are dropped except for `Json`, whose message records which parse error
occurred, and `Pass`, which the claims inspect. -/
inductive Error where
  | FromUtf8
  | Json (msg : String)
  | Io
  | InvalidInput
  | InvalidOutput
  | Pass (msg : String)
  | Utf8
deriving DecidableEq, Repr

/-- Model of Rust's `char::is_whitespace`: the Unicode `White_Space`
property — tab through carriage return (U+0009..U+000D, so vertical tab and
form feed included), space, next line (U+0085), no-break space (U+00A0),
Ogham space mark (U+1680), the typographic spaces U+2000..U+200A, line and
paragraph separators (U+2028, U+2029), narrow no-break space (U+202F), medium
mathematical space (U+205F) and ideographic space (U+3000). -/
def is_whitespace (c : Char) : Bool :=
  let n := c.toNat
  (0x09 ≤ n && n ≤ 0x0D) || n = 0x20 || n = 0x85 || n = 0xA0 || n = 0x1680 ||
    (0x2000 ≤ n && n ≤ 0x200A) || n = 0x2028 || n = 0x2029 || n = 0x202F ||
    n = 0x205F || n = 0x3000

/-- Model of Rust's `str::trim` (drop leading and trailing whitespace),
written over the character list so that it evaluates by kernel reduction. -/
def rust_trim (s : String) : String :=
  ⟨((s.data.dropWhile is_whitespace).reverse.dropWhile is_whitespace).reverse⟩

/-- Model of the test performed by the `validate_path!` macro: the operation
is rejected when the trimmed path is empty. -/
def validate_path_fails (path : String) : Bool :=
  (rust_trim path).isEmpty

/-- Modelled from the spec: the Line-Trim Utility (`mod chomp`, whose file
`src/chomp.rs` is not among the sources) strips a single trailing line
terminator (`"\r\n"` or `"\n"`) from a string and leaves every other string
unchanged. -/
def chomp (s : String) : String :=
  match s.data.reverse with
  | '\n' :: '\r' :: rest => ⟨rest.reverse⟩
  | '\n' :: rest => ⟨rest.reverse⟩
  | _ => s

/-- UTF-8 encoding of one scalar value, as a byte list. -/
def utf8EncodeChar (c : Char) : List Nat :=
  let n := c.toNat
  if n < 0x80 then [n]
  else if n < 0x800 then
    [0xC0 ||| (n >>> 6), 0x80 ||| (n &&& 0x3F)]
  else if n < 0x10000 then
    [0xE0 ||| (n >>> 12), 0x80 ||| ((n >>> 6) &&& 0x3F), 0x80 ||| (n &&& 0x3F)]
  else
    [0xF0 ||| (n >>> 18), 0x80 ||| ((n >>> 12) &&& 0x3F),
     0x80 ||| ((n >>> 6) &&& 0x3F), 0x80 ||| (n &&& 0x3F)]

/-- UTF-8 encoding of a string, as a byte list (the bytes Rust's `String`
stores, so `s.len()` in Rust is the length of this list). -/
def utf8Encode (s : String) : List Nat :=
  (s.data.map utf8EncodeChar).flatten

/-- Whether a byte is a UTF-8 continuation byte (`10xxxxxx`). -/
def is_cont (b : Nat) : Bool :=
  0x80 ≤ b && b < 0xC0

/-- Strict UTF-8 decoder (the check behind Rust's `String::from_utf8` and
`str::from_utf8`): rejects truncated sequences, stray continuation bytes,
overlong encodings, surrogates and out-of-range scalars.  `fuel` only needs to
be at least the length of the input. -/
def utf8DecodeAux : Nat → List Nat → Option (List Char)
  | _, [] => some []
  | 0, _ :: _ => none
  | fuel + 1, b :: rest =>
    if b < 0x80 then
      (utf8DecodeAux fuel rest).map (fun cs => Char.ofNat b :: cs)
    else if b < 0xC2 then
      none
    else if b < 0xE0 then
      match rest with
      | b1 :: rest2 =>
        if is_cont b1 then
          (utf8DecodeAux fuel rest2).map
            (fun cs => Char.ofNat ((b - 0xC0) * 0x40 + (b1 - 0x80)) :: cs)
        else none
      | [] => none
    else if b < 0xF0 then
      match rest with
      | b1 :: b2 :: rest2 =>
        if is_cont b1 && is_cont b2 then
          let n := (b - 0xE0) * 0x1000 + (b1 - 0x80) * 0x40 + (b2 - 0x80)
          if n < 0x800 || (0xD800 ≤ n && n < 0xE000) then none
          else (utf8DecodeAux fuel rest2).map (fun cs => Char.ofNat n :: cs)
        else none
      | _ => none
    else if b < 0xF5 then
      match rest with
      | b1 :: b2 :: b3 :: rest2 =>
        if is_cont b1 && is_cont b2 && is_cont b3 then
          let n := (b - 0xF0) * 0x40000 + (b1 - 0x80) * 0x1000 +
            (b2 - 0x80) * 0x40 + (b3 - 0x80)
          if n < 0x10000 || 0x110000 ≤ n then none
          else (utf8DecodeAux fuel rest2).map (fun cs => Char.ofNat n :: cs)
        else none
      | _ => none
    else none

/-- Model of Rust's `String::from_utf8` / `str::from_utf8`: the decoded text,
or `none` when the bytes are not valid UTF-8. -/
def utf8Decode (bs : List Nat) : Option String :=
  (utf8DecodeAux bs.length bs).map fun cs => ⟨cs⟩

/-- The captured outcome of one spawned `gopass` process: the bytes of its
two output streams and its exit status (which the library never reads). -/
structure Output where
  stdout : List Nat
  stderr : List Nat
  status : Int
deriving DecidableEq, Repr

/-- The argv (after the program name) built by `exec_pass`: the `command` is
passed first unless it is blank, then the `args` in order. -/
def exec_pass_argv (command : String) (args : List String) : List String :=
  (if validate_path_fails command then [] else [command]) ++ args

/-- Post-exit processing of `exec_pass` (`src/lib.rs` lines 215-223):
decode stderr as UTF-8 (`FromUtf8` on failure); a non-empty stderr is chomped
and returned as `Pass`; otherwise stdout is decoded as UTF-8 and returned. -/
def exec_pass_result (output : Output) : Except Error String :=
  match utf8Decode output.stderr with
  | none => .error .FromUtf8
  | some stderr =>
    if stderr.isEmpty then
      match utf8Decode output.stdout with
      | none => .error .FromUtf8
      | some stdout => .ok stdout
    else .error (.Pass (chomp stderr))

/-! ### JSON serialization (model of `JsonValue::dump`, compact form) -/

/-- One hexadecimal digit (lowercase), for escape sequences. -/
def hex_digit (n : Nat) : Char :=
  if n < 10 then Char.ofNat (48 + n) else Char.ofNat (87 + n)

/-- Four-digit hexadecimal rendering of a code unit below 0x10000. -/
def hex4 (n : Nat) : String :=
  ⟨[hex_digit (n / 0x1000 % 16), hex_digit (n / 0x100 % 16),
    hex_digit (n / 0x10 % 16), hex_digit (n % 16)]⟩

/-- JSON string escaping of one character, as the `json` crate writes it. -/
def escape_char (c : Char) : String :=
  if c = '"' then "\\\""
  else if c = '\\' then "\\\\"
  else if c = '\x08' then "\\b"
  else if c = '\x0c' then "\\f"
  else if c = '\n' then "\\n"
  else if c = '\r' then "\\r"
  else if c = '\t' then "\\t"
  else if c.toNat < 0x20 then "\\u" ++ hex4 c.toNat
  else ⟨[c]⟩

/-- A JSON string literal: quotes around the escaped characters. -/
def dump_string (s : String) : String :=
  "\"" ++ String.join (s.data.map escape_char) ++ "\""

mutual

/-- Model of `JsonValue::dump`: the compact serialization (no added
whitespace) that `gopass_ipc` sends down the wire. -/
def dump : JsonValue → String
  | .null => "null"
  | .bool true => "true"
  | .bool false => "false"
  | .num n => toString n
  | .str s => dump_string s
  | .arr es => "[" ++ dump_elems es ++ "]"
  | .obj ms => "\x7b" ++ dump_members ms ++ "\x7d"

/-- Comma-separated serialization of array elements. -/
def dump_elems : List JsonValue → String
  | [] => ""
  | [e] => dump e
  | e :: es => dump e ++ "," ++ dump_elems es

/-- Comma-separated serialization of object members. -/
def dump_members : List (String × JsonValue) → String
  | [] => ""
  | [(k, v)] => dump_string k ++ ":" ++ dump v
  | (k, v) :: ms => dump_string k ++ ":" ++ dump v ++ "," ++ dump_members ms

end

/-! ### JSON parsing (model of `json::parse`) -/

/-- Skip JSON whitespace. -/
def skip_ws : List Char → List Char
  | c :: cs => if c = ' ' || c = '\n' || c = '\r' || c = '\t' then skip_ws cs else c :: cs
  | [] => []

/-- Value of one hexadecimal digit. -/
def hex_val (c : Char) : Option Nat :=
  if '0' ≤ c ∧ c ≤ '9' then some (c.toNat - 48)
  else if 'a' ≤ c ∧ c ≤ 'f' then some (c.toNat - 87)
  else if 'A' ≤ c ∧ c ≤ 'F' then some (c.toNat - 55)
  else none

/-- Parse the body of a JSON string literal (the opening quote already
consumed), returning the accumulated characters and the rest of the input.
Escape sequences follow the JSON grammar; `\uXXXX` surrogates are rejected
(a model restriction: the crate reassembles surrogate pairs, which no payload
this library exchanges contains). -/
def parse_string_chars : List Char → List Char → Option (List Char × List Char)
  | acc, '"' :: rest => some (acc.reverse, rest)
  | acc, '\\' :: c :: rest =>
    if c = '"' then parse_string_chars ('"' :: acc) rest
    else if c = '\\' then parse_string_chars ('\\' :: acc) rest
    else if c = '/' then parse_string_chars ('/' :: acc) rest
    else if c = 'b' then parse_string_chars ('\x08' :: acc) rest
    else if c = 'f' then parse_string_chars ('\x0c' :: acc) rest
    else if c = 'n' then parse_string_chars ('\n' :: acc) rest
    else if c = 'r' then parse_string_chars ('\r' :: acc) rest
    else if c = 't' then parse_string_chars ('\t' :: acc) rest
    else if c = 'u' then
      match rest with
      | h1 :: h2 :: h3 :: h4 :: rest2 =>
        match hex_val h1, hex_val h2, hex_val h3, hex_val h4 with
        | some v1, some v2, some v3, some v4 =>
          let n := v1 * 0x1000 + v2 * 0x100 + v3 * 0x10 + v4
          if 0xD800 ≤ n ∧ n < 0xE000 then none
          else parse_string_chars (Char.ofNat n :: acc) rest2
        | _, _, _, _ => none
      | _ => none
    else none
  | acc, c :: rest =>
    if c.toNat < 0x20 then none else parse_string_chars (c :: acc) rest
  | _, [] => none

/-- Numeric value of a digit string. -/
def digits_to_nat (ds : List Char) : Nat :=
  ds.foldl (fun a c => a * 10 + (c.toNat - 48)) 0

/-- Parse the digits of a JSON number (sign already handled).  Fractions and
exponents are rejected (a model restriction: the only numbers this library
ever sends or reads back are integers). -/
def parse_number_nonneg (cs : List Char) : Except String (Int × List Char) :=
  let ds := cs.takeWhile Char.isDigit
  let rest := cs.dropWhile Char.isDigit
  if ds.isEmpty then .error "expected digits"
  else
    match rest with
    | '.' :: _ => .error "number with fraction or exponent (model restriction)"
    | 'e' :: _ => .error "number with fraction or exponent (model restriction)"
    | 'E' :: _ => .error "number with fraction or exponent (model restriction)"
    | _ => .ok ((digits_to_nat ds : Nat), rest)

mutual

/-- Recursive-descent JSON value parser.  `fuel` bounds the recursion depth;
`json_parse` passes more fuel than any input can consume. -/
def parse_value : Nat → List Char → Except String (JsonValue × List Char)
  | 0, _ => .error "json too deeply nested"
  | fuel + 1, cs =>
    match skip_ws cs with
    | [] => .error "unexpected end of input"
    | c :: rest =>
      if c = '\x7b' then parse_members fuel rest true []
      else if c = '[' then parse_elems fuel rest true []
      else if c = '"' then
        match parse_string_chars [] rest with
        | some (body, rest2) => .ok (.str ⟨body⟩, rest2)
        | none => .error "malformed string"
      else if c = 't' then
        match rest with
        | 'r' :: 'u' :: 'e' :: rest2 => .ok (.bool true, rest2)
        | _ => .error "unexpected character"
      else if c = 'f' then
        match rest with
        | 'a' :: 'l' :: 's' :: 'e' :: rest2 => .ok (.bool false, rest2)
        | _ => .error "unexpected character"
      else if c = 'n' then
        match rest with
        | 'u' :: 'l' :: 'l' :: rest2 => .ok (.null, rest2)
        | _ => .error "unexpected character"
      else if c = '-' then
        (parse_number_nonneg rest).map (fun p => (.num (-p.1), p.2))
      else if c.isDigit then
        (parse_number_nonneg (c :: rest)).map (fun p => (.num p.1, p.2))
      else .error "unexpected character"

/-- Parse the elements of a JSON array (opening bracket already consumed). -/
def parse_elems : Nat → List Char → Bool → List JsonValue →
    Except String (JsonValue × List Char)
  | 0, _, _, _ => .error "json too deeply nested"
  | fuel + 1, cs, first, acc =>
    match first, skip_ws cs with
    | true, ']' :: rest => .ok (.arr [], rest)
    | _, cs2 =>
      match parse_value fuel cs2 with
      | .error e => .error e
      | .ok (v, rest) =>
        match skip_ws rest with
        | ',' :: rest2 => parse_elems fuel rest2 false (acc ++ [v])
        | ']' :: rest2 => .ok (.arr (acc ++ [v]), rest2)
        | _ => .error "expected comma or close bracket"

/-- Parse the members of a JSON object (opening brace already consumed). -/
def parse_members : Nat → List Char → Bool → List (String × JsonValue) →
    Except String (JsonValue × List Char)
  | 0, _, _, _ => .error "json too deeply nested"
  | fuel + 1, cs, first, acc =>
    match first, skip_ws cs with
    | true, '\x7d' :: rest => .ok (.obj [], rest)
    | _, cs2 =>
      match cs2 with
      | '"' :: rest =>
        match parse_string_chars [] rest with
        | none => .error "malformed string"
        | some (key, rest2) =>
          match skip_ws rest2 with
          | ':' :: rest3 =>
            match parse_value fuel rest3 with
            | .error e => .error e
            | .ok (v, rest4) =>
              match skip_ws rest4 with
              | ',' :: rest5 => parse_members fuel rest5 false (acc ++ [(⟨key⟩, v)])
              | '\x7d' :: rest5 => .ok (.obj (acc ++ [(⟨key⟩, v)]), rest5)
              | _ => .error "expected comma or close brace"
          | _ => .error "expected colon"
      | _ => .error "expected string key"

end

/-- Model of `json::parse`: parse a complete JSON document (nothing but
whitespace may follow the top-level value). -/
def json_parse (s : String) : Except String JsonValue :=
  match parse_value (2 * s.data.length + 2) s.data with
  | .error e => .error e
  | .ok (v, rest) =>
    match skip_ws rest with
    | [] => .ok v
    | _ => .error "unexpected trailing characters"

/-! ### The framed transport (`gopass_ipc`, `i32_to_bytes`) -/

/-- The fixed argv of the framed-transport process (`src/lib.rs` line 229). -/
def gopass_ipc_argv : List String := ["jsonapi", "listen"]

/-- Number of length-prefix bytes skipped on the response (`src/lib.rs` 48). -/
def MSG_SIZE : Nat := 4

/-- Model of Rust's `as i32` cast from `usize`: wrap modulo `2^32` and
reinterpret in the signed range. -/
def usize_as_i32 (n : Nat) : Int :=
  if n % 2 ^ 32 < 2 ^ 31 then ((n % 2 ^ 32 : Nat) : Int)
  else ((n % 2 ^ 32 : Nat) : Int) - 2 ^ 32

/-- `i32_to_bytes` (`src/lib.rs` 251-258).  Rust's `&` and `>>` on `i32` are
the two's-complement bitwise and / arithmetic shift, which on the unbounded
`Int` carrying the same value are exactly `Int.land` and `>>>`; the final
`as u8` cast is `.toNat` (the masked value already lies in `[0, 255]`). -/
def i32_to_bytes (num : Int) : List Nat :=
  [ (Int.land num 0xFF).toNat,
    (Int.land (num >>> (8 : Int)) 0xFF).toNat,
    (Int.land (num >>> (16 : Int)) 0xFF).toNat,
    (Int.land (num >>> (24 : Int)) 0xFF).toNat ]

/-- The bytes `gopass_ipc` writes to the child's stdin (`src/lib.rs` 234-238):
the four length bytes of `json_string.len() as i32`, then the UTF-8 bytes of
the compact serialization — nothing else, in particular no newline. -/
def gopass_ipc_write (json_query : JsonValue) : List Nat :=
  let json_string := dump json_query
  i32_to_bytes (usize_as_i32 (utf8Encode json_string).length) ++ utf8Encode json_string

/-- Post-exit processing of `gopass_ipc` (`src/lib.rs` 239-248): decode stderr
(`FromUtf8` on failure); a non-empty stderr is chomped and returned as `Pass`;
otherwise the stdout slice `[MSG_SIZE..]` is taken — Rust panics when stdout
is shorter than `MSG_SIZE`, modelled by `none` — decoded as UTF-8 (`Utf8` on
failure) and parsed as JSON (`Json` on failure). -/
def gopass_ipc_result (output : Output) : Option (Except Error JsonValue) :=
  match utf8Decode output.stderr with
  | none => some (.error .FromUtf8)
  | some stderr =>
    if stderr.isEmpty then
      if output.stdout.length < MSG_SIZE then none
      else
        match utf8Decode (output.stdout.drop MSG_SIZE) with
        | none => some (.error .Utf8)
        | some text =>
          match json_parse text with
          | .ok v => some (.ok v)
          | .error e => some (.error (.Json e))
    else some (.error (.Pass (chomp stderr)))

/-! ### The five public operations of `PasswordStore` -/

/-- The request object `get` sends (`src/lib.rs` 126-129). -/
def getLogin_query (path : String) : JsonValue :=
  .obj [("type", .str "getLogin"), ("entry", .str path)]

/-- `PasswordStore::get` (`src/lib.rs` 124-136), as a function of the captured
process outcome. -/
def PasswordStore.get (path : String) (output : Output) :
    Option (Except Error String) :=
  if validate_path_fails path then some (.error .InvalidInput)
  else
    match gopass_ipc_result output with
    | none => none
    | some (.error e) => some (.error e)
    | some (.ok response) =>
      match take_string (json_index response "password") with
      | some password => some (.ok password)
      | none => some (.error .InvalidOutput)

/-- The request object `get_usernames` sends (`src/lib.rs` 141-144). -/
def query_query (path : String) : JsonValue :=
  .obj [("type", .str "query"), ("query", .str path)]

/-- Index just past the last occurrence of `c`, as
`username.rfind('/').map(|index| index + 1)` computes it. -/
def rfind_char : List Char → Char → Option Nat
  | [], _ => none
  | x :: xs, c =>
    match rfind_char xs c with
    | some i => some (i + 1)
    | none => if x = c then some 0 else none

/-- The per-element transformation of `get_usernames` (`src/lib.rs` 154-155):
everything after the last `/`, or the whole string when there is none. -/
def username_from_entry (username : String) : String :=
  let index :=
    match rfind_char username.data '/' with
    | some i => i + 1
    | none => 0
  ⟨username.data.drop index⟩

/-- The element loop of `get_usernames` (`src/lib.rs` 148-156): every element
must be a string, and each contributes its final path segment, in order. -/
def usernames_from_response : List JsonValue → Except Error (List String)
  | [] => .ok []
  | u :: rest =>
    match as_str u with
    | none => .error .InvalidOutput
    | some username =>
      (usernames_from_response rest).map (fun r => username_from_entry username :: r)

/-- `PasswordStore::get_usernames` (`src/lib.rs` 139-161). -/
def PasswordStore.get_usernames (path : String) (output : Output) :
    Option (Except Error (List String)) :=
  if validate_path_fails path then some (.error .InvalidInput)
  else
    match gopass_ipc_result output with
    | none => none
    | some (.error e) => some (.error e)
    | some (.ok response) =>
      match response with
      | .arr usernames => some (usernames_from_response usernames)
      | _ => some (.error .InvalidOutput)

/-- The request object `generate` sends (`src/lib.rs` 166-173). -/
def create_generate_query (path : String) (use_symbols : Bool) (length : Int) :
    JsonValue :=
  .obj [("type", .str "create"), ("entry_name", .str path), ("password", .str ""),
        ("generate", .bool true), ("length", .num length),
        ("use_symbols", .bool use_symbols)]

/-- `PasswordStore::generate` (`src/lib.rs` 164-178). -/
def PasswordStore.generate (path : String) (use_symbols : Bool) (length : Int)
    (output : Output) : Option (Except Error Unit) :=
  if validate_path_fails path then some (.error .InvalidInput)
  else
    match gopass_ipc_result output with
    | none => none
    | some (.error e) => some (.error e)
    | some (.ok response) =>
      if (as_str (json_index response "username")).isNone then
        some (.error .InvalidOutput)
      else some (.ok ())

/-- The request object `insert` sends (`src/lib.rs` 183-187). -/
def create_insert_query (path password : String) : JsonValue :=
  .obj [("type", .str "create"), ("entry_name", .str path),
        ("password", .str password)]

/-- The response check of `insert` (`src/lib.rs` 188-193): a present string
`password` member differing from the supplied password is `InvalidOutput`;
everything else (absent member, equal echo, non-string member) is success. -/
def insert_check (password : String) (response : JsonValue) : Except Error Unit :=
  match as_str (json_index response "password") with
  | some inserted_password =>
    if password ≠ inserted_password then .error .InvalidOutput else .ok ()
  | none => .ok ()

/-- `PasswordStore::insert` (`src/lib.rs` 181-194). -/
def PasswordStore.insert (path password : String) (output : Output) :
    Option (Except Error Unit) :=
  if validate_path_fails path then some (.error .InvalidInput)
  else
    match gopass_ipc_result output with
    | none => none
    | some (.error e) => some (.error e)
    | some (.ok response) => some (insert_check password response)

/-- The argv `remove` passes to the direct transport (`src/lib.rs` 199). -/
def remove_argv (path : String) : List String :=
  exec_pass_argv "rm" ["-f", path]

/-- `PasswordStore::remove` (`src/lib.rs` 197-201): the `exec_pass` output
text is dropped, success is passed through. -/
def PasswordStore.remove (path : String) (output : Output) : Except Error Unit :=
  if validate_path_fails path then .error .InvalidInput
  else
    match exec_pass_result output with
    | .error e => .error e
    | .ok _ => .ok ()

/-- Processes spawned by one `get` call: the `validate_path!` early return
precedes the single `gopass_ipc` spawn, so an invalid path spawns nothing. -/
def get_spawns (path : String) : Nat :=
  if validate_path_fails path then 0 else 1

/-- Processes spawned by one `get_usernames` call. -/
def get_usernames_spawns (path : String) : Nat :=
  if validate_path_fails path then 0 else 1

/-- Processes spawned by one `generate` call. -/
def generate_spawns (path : String) : Nat :=
  if validate_path_fails path then 0 else 1

/-- Processes spawned by one `insert` call. -/
def insert_spawns (path : String) : Nat :=
  if validate_path_fails path then 0 else 1

/-- Processes spawned by one `remove` call: the `validate_path!` early return
precedes the single `exec_pass` spawn. -/
def remove_spawns (path : String) : Nat :=
  if validate_path_fails path then 0 else 1

/-- The spec's own description of the `get_usernames` element mapping — "the
username is the substring after the last `/` separator (or the whole string
if no separator exists)" — written directly: the longest slash-free suffix. -/
def spec_last_segment (s : String) : String :=
  ⟨(s.data.reverse.takeWhile (fun c => c ≠ '/')).reverse⟩

/-- The spec-side description of the frame prefix: the four little-endian
base-256 digits of a number (the payload byte length reduced modulo `2^32`),
written with plain division and remainder rather than the source's
shift-and-mask arithmetic. -/
def le4_bytes (u : Nat) : List Nat :=
  [u % 256, u / 256 % 256, u / 65536 % 256, u / 16777216 % 256]

/-! ### Concrete byte streams used when instantiating the theorems -/

/-- A well-formed framed `get` response: four prefix bytes, then
`{"password":"abc"}` (written with escaped braces). -/
def okStdout : List Nat :=
  [0, 0, 0, 0] ++ utf8Encode "\x7b\"password\":\"abc\"\x7d"

/-- The bytes of the error text `"entry not found\n"`. -/
def errBytes : List Nat :=
  utf8Encode "entry not found\n"

/-! ### Shared lemmas -/

/-- A string that is not `""` has `isEmpty = false`. -/
theorem isEmpty_false_of_ne {e : String} (hne : e ≠ "") : e.isEmpty = false := by
  cases h : e.isEmpty
  · rfl
  · exact absurd ((String.isEmpty_iff e).mp h) hne

/-- `exec_pass` never produces `InvalidInput`: its error constructors are
`FromUtf8` and `Pass` only. -/
theorem exec_pass_result_ne_invalid_input (out : Output) :
    exec_pass_result out ≠ .error .InvalidInput := by
  unfold exec_pass_result
  split
  · simp
  · split
    · split <;> simp
    · simp

/-- `gopass_ipc` never produces `InvalidInput`: its error constructors are
`FromUtf8`, `Pass`, `Utf8` and `Json` only. -/
theorem gopass_ipc_result_ne_invalid_input (out : Output) :
    gopass_ipc_result out ≠ some (.error .InvalidInput) := by
  unfold gopass_ipc_result
  split
  · simp
  · split
    · split
      · simp
      · split
        · simp
        · split <;> simp
    · simp

/-- When the error stream decodes to non-empty text `e`, both transports
fail with `Pass (chomp e)` whatever the output stream holds. -/
theorem transports_pass_of_stderr {out : Output} {e : String}
    (hdec : utf8Decode out.stderr = some e) (hne : e ≠ "") :
    exec_pass_result out = .error (.Pass (chomp e)) ∧
    gopass_ipc_result out = some (.error (.Pass (chomp e))) := by
  constructor
  · unfold exec_pass_result
    rw [hdec]
    simp [isEmpty_false_of_ne hne]
  · unfold gopass_ipc_result
    rw [hdec]
    simp [isEmpty_false_of_ne hne]

/-! ### C1 -/

/-- C1: For every call (any of the five operations, either transport) whose
captured error stream decodes to non-empty text, the call fails with `Pass`
carrying that text with one trailing line terminator removed, regardless of
what the output stream contains. -/
theorem nonempty_stderr_fails_with_pass
    (stdoutB stderrB : List Nat) (st : Int) (e : String)
    (hdec : utf8Decode stderrB = some e) (hne : e ≠ "")
    (path password : String) (use_symbols : Bool) (length : Int)
    (hpath : validate_path_fails path = false) :
    exec_pass_result ⟨stdoutB, stderrB, st⟩ = .error (.Pass (chomp e)) ∧
    gopass_ipc_result ⟨stdoutB, stderrB, st⟩ = some (.error (.Pass (chomp e))) ∧
    PasswordStore.get path ⟨stdoutB, stderrB, st⟩ = some (.error (.Pass (chomp e))) ∧
    PasswordStore.get_usernames path ⟨stdoutB, stderrB, st⟩ =
      some (.error (.Pass (chomp e))) ∧
    PasswordStore.generate path use_symbols length ⟨stdoutB, stderrB, st⟩ =
      some (.error (.Pass (chomp e))) ∧
    PasswordStore.insert path password ⟨stdoutB, stderrB, st⟩ =
      some (.error (.Pass (chomp e))) ∧
    PasswordStore.remove path ⟨stdoutB, stderrB, st⟩ = .error (.Pass (chomp e)) := by
  have hdec2 : utf8Decode (Output.mk stdoutB stderrB st).stderr = some e := hdec
  obtain ⟨hexec, hipc⟩ := transports_pass_of_stderr hdec2 hne
  refine ⟨hexec, hipc, ?_, ?_, ?_, ?_, ?_⟩ <;>
    simp [PasswordStore.get, PasswordStore.get_usernames, PasswordStore.generate,
      PasswordStore.insert, PasswordStore.remove, hpath, hexec, hipc]

/-- C1 witness: a concrete failing outcome (error stream `"entry not found\n"`)
observed through every operation, even though stdout holds a well-formed
response. -/
theorem nonempty_stderr_fails_with_pass_witness :
    exec_pass_result ⟨okStdout, errBytes, 0⟩ = .error (.Pass (chomp "entry not found\n")) ∧
    gopass_ipc_result ⟨okStdout, errBytes, 0⟩ =
      some (.error (.Pass (chomp "entry not found\n"))) ∧
    PasswordStore.get "a" ⟨okStdout, errBytes, 0⟩ =
      some (.error (.Pass (chomp "entry not found\n"))) ∧
    PasswordStore.get_usernames "a" ⟨okStdout, errBytes, 0⟩ =
      some (.error (.Pass (chomp "entry not found\n"))) ∧
    PasswordStore.generate "a" true 8 ⟨okStdout, errBytes, 0⟩ =
      some (.error (.Pass (chomp "entry not found\n"))) ∧
    PasswordStore.insert "a" "secret" ⟨okStdout, errBytes, 0⟩ =
      some (.error (.Pass (chomp "entry not found\n"))) ∧
    PasswordStore.remove "a" ⟨okStdout, errBytes, 0⟩ =
      .error (.Pass (chomp "entry not found\n")) :=
  nonempty_stderr_fails_with_pass okStdout errBytes 0 "entry not found\n"
    (by decide) (by decide) "a" "secret" true 8 (by decide)

/-! ### C2 -/

/-- C2 counterexample: an error stream consisting of exactly one line
terminator — empty after trimming — IS treated as a failure signal: the code
tests emptiness before chomping, so the call fails with `Pass ""` although
the claim says such a stream is not a failure signal. -/
theorem pass_iff_trimmed_nonempty_counterexample :
    exec_pass_result ⟨[], [10], 0⟩ = .error (.Pass "") ∧
    gopass_ipc_result ⟨[], [10], 0⟩ = some (.error (.Pass "")) ∧
    utf8Decode [10] = some "\n" ∧ chomp "\n" = "" :=
  ⟨rfl, rfl, rfl, rfl⟩

/-- C2 (amended): a call fails with `Pass` iff the raw error-stream text is
non-empty before any trimming (the carried message is the trimmed text, per
C1). -/
theorem pass_iff_raw_stderr_nonempty (out : Output) (e : String)
    (hdec : utf8Decode out.stderr = some e) :
    ((∃ msg, exec_pass_result out = .error (.Pass msg)) ↔ e ≠ "") ∧
    ((∃ msg, gopass_ipc_result out = some (.error (.Pass msg))) ↔ e ≠ "") := by
  by_cases he : e = ""
  · subst he
    have hemp : ("" : String).isEmpty = true := rfl
    constructor
    · constructor
      · rintro ⟨msg, hmsg⟩
        unfold exec_pass_result at hmsg
        rw [hdec] at hmsg
        simp only [hemp, if_true] at hmsg
        rcases h2 : utf8Decode out.stdout with _ | s <;> simp [h2] at hmsg
      · intro hne
        exact absurd rfl hne
    · constructor
      · rintro ⟨msg, hmsg⟩
        unfold gopass_ipc_result at hmsg
        rw [hdec] at hmsg
        simp only [hemp, if_true] at hmsg
        split at hmsg
        · exact Option.noConfusion hmsg
        · rcases h2 : utf8Decode (out.stdout.drop MSG_SIZE) with _ | s
          · simp [h2] at hmsg
          · rcases h3 : json_parse s with e | v <;> simp [h2, h3] at hmsg
      · intro hne
        exact absurd rfl hne
  · constructor
    · exact ⟨fun _ => he, fun hne => ⟨chomp e, (transports_pass_of_stderr hdec hne).1⟩⟩
    · exact ⟨fun _ => he, fun hne => ⟨chomp e, (transports_pass_of_stderr hdec hne).2⟩⟩

/-- C2 (amended) witness: a concrete outcome with error text `"oops\n"`. -/
theorem pass_iff_raw_stderr_nonempty_witness :
    ((∃ msg, exec_pass_result ⟨[], errBytes, 0⟩ = .error (.Pass msg)) ↔
      "entry not found\n" ≠ "") ∧
    ((∃ msg, gopass_ipc_result ⟨[], errBytes, 0⟩ = some (.error (.Pass msg))) ↔
      "entry not found\n" ≠ "") :=
  pass_iff_raw_stderr_nonempty ⟨[], errBytes, 0⟩ "entry not found\n" (by decide)

/-! ### C3 -/

/-- The element loop of `get_usernames` can only fail with `InvalidOutput`. -/
theorem usernames_from_response_ne_invalid_input :
    ∀ l, usernames_from_response l ≠ .error .InvalidInput := by
  intro l
  induction l with
  | nil => simp [usernames_from_response]
  | cons u rest ih =>
    simp only [usernames_from_response]
    rcases as_str u with _ | s
    · simp
    · intro hc
      rcases h2 : usernames_from_response rest with e | r
      · rw [h2] at hc
        simp only [Except.map] at hc
        exact ih (by rw [h2]; exact hc)
      · rw [h2] at hc
        simp [Except.map] at hc

/-- C3: a path that is empty or whitespace-only after trimming makes every
operation fail with `InvalidInput` (whatever the transport would return) and
spawn no process; a path that is non-empty after trimming never yields
`InvalidInput` from any operation. -/
theorem invalid_input_iff_blank_path (path : String) (out : Output)
    (password : String) (use_symbols : Bool) (length : Int) :
    (validate_path_fails path = true →
      PasswordStore.get path out = some (.error .InvalidInput) ∧
      PasswordStore.get_usernames path out = some (.error .InvalidInput) ∧
      PasswordStore.generate path use_symbols length out = some (.error .InvalidInput) ∧
      PasswordStore.insert path password out = some (.error .InvalidInput) ∧
      PasswordStore.remove path out = .error .InvalidInput ∧
      get_spawns path = 0 ∧ get_usernames_spawns path = 0 ∧
      generate_spawns path = 0 ∧ insert_spawns path = 0 ∧ remove_spawns path = 0) ∧
    (validate_path_fails path = false →
      PasswordStore.get path out ≠ some (.error .InvalidInput) ∧
      PasswordStore.get_usernames path out ≠ some (.error .InvalidInput) ∧
      PasswordStore.generate path use_symbols length out ≠ some (.error .InvalidInput) ∧
      PasswordStore.insert path password out ≠ some (.error .InvalidInput) ∧
      PasswordStore.remove path out ≠ .error .InvalidInput) := by
  constructor
  · intro h
    refine ⟨?_, ?_, ?_, ?_, ?_, ?_, ?_, ?_, ?_, ?_⟩ <;>
      simp [PasswordStore.get, PasswordStore.get_usernames, PasswordStore.generate,
        PasswordStore.insert, PasswordStore.remove, get_spawns, get_usernames_spawns,
        generate_spawns, insert_spawns, remove_spawns, h]
  · intro h
    have hipc := gopass_ipc_result_ne_invalid_input out
    refine ⟨?_, ?_, ?_, ?_, ?_⟩
    · intro hc
      rcases hr : gopass_ipc_result out with _ | (e | resp)
      · simp [PasswordStore.get, h, hr] at hc
      · have hne : e ≠ .InvalidInput := fun hee => hipc (by rw [hr, hee])
        simp [PasswordStore.get, h, hr] at hc
        exact hne hc
      · simp [PasswordStore.get, h, hr] at hc
        rcases ht : take_string (json_index resp "password") with _ | s <;>
          simp [ht] at hc
    · intro hc
      rcases hr : gopass_ipc_result out with _ | (e | resp)
      · simp [PasswordStore.get_usernames, h, hr] at hc
      · have hne : e ≠ .InvalidInput := fun hee => hipc (by rw [hr, hee])
        simp [PasswordStore.get_usernames, h, hr] at hc
        exact hne hc
      · simp [PasswordStore.get_usernames, h, hr] at hc
        rcases resp with _ | b | n | s | elems | ms <;> simp at hc
        exact usernames_from_response_ne_invalid_input elems hc
    · intro hc
      rcases hr : gopass_ipc_result out with _ | (e | resp)
      · simp [PasswordStore.generate, h, hr] at hc
      · have hne : e ≠ .InvalidInput := fun hee => hipc (by rw [hr, hee])
        simp [PasswordStore.generate, h, hr] at hc
        exact hne hc
      · simp [PasswordStore.generate, h, hr] at hc
        rcases ht : as_str (json_index resp "username") with _ | s <;>
          simp [ht] at hc
    · intro hc
      rcases hr : gopass_ipc_result out with _ | (e | resp)
      · simp [PasswordStore.insert, h, hr] at hc
      · have hne : e ≠ .InvalidInput := fun hee => hipc (by rw [hr, hee])
        simp [PasswordStore.insert, h, hr] at hc
        exact hne hc
      · simp [PasswordStore.insert, h, hr, insert_check] at hc
        rcases ht : as_str (json_index resp "password") with _ | s <;>
          simp [ht] at hc
        split at hc <;> simp at hc
    · intro hc
      have hexec := exec_pass_result_ne_invalid_input out
      rcases hr : exec_pass_result out with e | s
      · have hne : e ≠ .InvalidInput := fun hee => hexec (by rw [hr, hee])
        simp [PasswordStore.remove, h, hr] at hc
        exact hne hc
      · simp [PasswordStore.remove, h, hr] at hc

/-- C3 witness: the whitespace-only path `" \x0C "` (space, form feed,
no-break space — all stripped by Rust's trim) is rejected by every operation
with no spawn; the path `"a"` is never rejected as `InvalidInput`. -/
theorem invalid_input_iff_blank_path_witness :
    (PasswordStore.get " \x0C " ⟨[], [], 0⟩ = some (.error .InvalidInput) ∧
     PasswordStore.get_usernames " \x0C " ⟨[], [], 0⟩ =
       some (.error .InvalidInput) ∧
     PasswordStore.generate " \x0C " true 8 ⟨[], [], 0⟩ =
       some (.error .InvalidInput) ∧
     PasswordStore.insert " \x0C " "pw" ⟨[], [], 0⟩ =
       some (.error .InvalidInput) ∧
     PasswordStore.remove " \x0C " ⟨[], [], 0⟩ = .error .InvalidInput ∧
     get_spawns " \x0C " = 0 ∧ get_usernames_spawns " \x0C " = 0 ∧
     generate_spawns " \x0C " = 0 ∧ insert_spawns " \x0C " = 0 ∧
     remove_spawns " \x0C " = 0) ∧
    (PasswordStore.get "a" ⟨[], [], 0⟩ ≠ some (.error .InvalidInput) ∧
     PasswordStore.get_usernames "a" ⟨[], [], 0⟩ ≠ some (.error .InvalidInput) ∧
     PasswordStore.generate "a" true 8 ⟨[], [], 0⟩ ≠ some (.error .InvalidInput) ∧
     PasswordStore.insert "a" "pw" ⟨[], [], 0⟩ ≠ some (.error .InvalidInput) ∧
     PasswordStore.remove "a" ⟨[], [], 0⟩ ≠ .error .InvalidInput) :=
  ⟨(invalid_input_iff_blank_path " \x0C " ⟨[], [], 0⟩ "pw" true 8).1 (by decide),
   (invalid_input_iff_blank_path "a" ⟨[], [], 0⟩ "pw" true 8).2 (by decide)⟩

/-! ### C4 -/

/-- C4: under the framed transport, `insert` succeeds when the response has
no `password` member or echoes the supplied password, and fails with
`InvalidOutput` when the echoed password differs. -/
theorem insert_password_echo_check (path password : String)
    (hpath : validate_path_fails path = false) (out : Output) (resp : JsonValue)
    (hresp : gopass_ipc_result out = some (.ok resp)) :
    (json_member resp "password" = none →
      PasswordStore.insert path password out = some (.ok ())) ∧
    (json_member resp "password" = some (.str password) →
      PasswordStore.insert path password out = some (.ok ())) ∧
    (∀ s, json_member resp "password" = some (.str s) → s ≠ password →
      PasswordStore.insert path password out = some (.error .InvalidOutput)) := by
  have hbase : PasswordStore.insert path password out =
      some (insert_check password resp) := by
    simp [PasswordStore.insert, hpath, hresp]
  refine ⟨?_, ?_, ?_⟩
  · intro hm
    rw [hbase]
    simp [insert_check, json_index, hm, as_str]
  · intro hm
    rw [hbase]
    simp [insert_check, json_index, hm, as_str]
  · intro s hm hs
    rw [hbase]
    simp [insert_check, json_index, hm, as_str, Ne.symm hs]

/-- C4 witness: a stub response `{"password":"different"}` makes
`insert(path, "secret")` fail with `InvalidOutput`. -/
theorem insert_password_echo_check_witness :
    (json_member (.obj [("password", .str "different")]) "password" = none →
      PasswordStore.insert "a" "secret"
        ⟨[0, 0, 0, 0] ++ utf8Encode "\x7b\"password\":\"different\"\x7d", [], 0⟩ =
        some (.ok ())) ∧
    (json_member (.obj [("password", .str "different")]) "password" =
        some (.str "secret") →
      PasswordStore.insert "a" "secret"
        ⟨[0, 0, 0, 0] ++ utf8Encode "\x7b\"password\":\"different\"\x7d", [], 0⟩ =
        some (.ok ())) ∧
    (∀ s, json_member (.obj [("password", .str "different")]) "password" =
        some (.str s) → s ≠ "secret" →
      PasswordStore.insert "a" "secret"
        ⟨[0, 0, 0, 0] ++ utf8Encode "\x7b\"password\":\"different\"\x7d", [], 0⟩ =
        some (.error .InvalidOutput)) :=
  insert_password_echo_check "a" "secret" (by decide)
    ⟨[0, 0, 0, 0] ++ utf8Encode "\x7b\"password\":\"different\"\x7d", [], 0⟩
    (.obj [("password", .str "different")]) rfl

/-! ### C5 -/

/-- `takeWhile` passes over a prefix whose elements all satisfy `p`. -/
theorem takeWhile_append_of_all {α : Type} (p : α → Bool) (l1 l2 : List α)
    (h : ∀ a ∈ l1, p a = true) :
    (l1 ++ l2).takeWhile p = l1 ++ l2.takeWhile p := by
  induction l1 with
  | nil => simp
  | cons a l ih =>
    have ha : p a = true := h a (List.mem_cons_self a l)
    simp only [List.cons_append, List.takeWhile_cons, ha, if_true]
    rw [ih (fun b hb => h b (List.mem_cons_of_mem a hb))]

/-- `takeWhile` never reaches the second list when the first contains a
failing element. -/
theorem takeWhile_append_of_exists_not {α : Type} (p : α → Bool) (l1 l2 : List α)
    (h : ∃ a ∈ l1, p a = false) :
    (l1 ++ l2).takeWhile p = l1.takeWhile p := by
  induction l1 with
  | nil =>
    obtain ⟨a, ha, _⟩ := h
    cases ha
  | cons a l ih =>
    rcases hpa : p a with _ | _
    · simp [List.takeWhile_cons, hpa]
    · obtain ⟨b, hb, hpb⟩ := h
      rcases List.mem_cons.mp hb with rfl | hbl
      · rw [hpa] at hpb
        cases hpb
      · simp only [List.cons_append, List.takeWhile_cons, hpa, if_true]
        rw [ih ⟨b, hbl, hpb⟩]

/-- `rfind_char` misses exactly when the character is absent. -/
theorem rfind_char_eq_none {cs : List Char} {c : Char}
    (h : rfind_char cs c = none) : c ∉ cs := by
  induction cs with
  | nil => simp
  | cons x xs ih =>
    simp only [rfind_char] at h
    rcases h2 : rfind_char xs c with _ | i
    · simp only [h2] at h
      by_cases hx : x = c
      · rw [if_pos hx] at h
        cases h
      · simp only [List.mem_cons]
        rintro (rfl | hm)
        · exact hx rfl
        · exact ih h2 hm
    · simp only [h2] at h
      cases h

/-- A hit reported by `rfind_char` implies the character is present. -/
theorem rfind_char_some_mem {cs : List Char} {c : Char} {i : Nat}
    (h : rfind_char cs c = some i) : c ∈ cs := by
  induction cs generalizing i with
  | nil => cases h
  | cons x xs ih =>
    simp only [rfind_char] at h
    rcases h2 : rfind_char xs c with _ | j
    · simp only [h2] at h
      by_cases hx : x = c
      · exact hx ▸ List.mem_cons_self x xs
      · rw [if_neg hx] at h
        cases h
    · exact List.mem_cons_of_mem x (ih h2)

/-- The source's `rfind`-and-slice computation equals the spec's "longest
slash-free suffix" description, at the level of character lists. -/
theorem drop_rfind_eq_suffix (cs : List Char) :
    cs.drop (match rfind_char cs '/' with | some i => i + 1 | none => 0) =
      (cs.reverse.takeWhile (fun c => c ≠ '/')).reverse := by
  induction cs with
  | nil => rfl
  | cons x xs ih =>
    rcases h : rfind_char xs '/' with _ | i
    · have hnotin : '/' ∉ xs := rfind_char_eq_none h
      have hall : ∀ a ∈ xs.reverse, (fun c => (c ≠ '/' : Bool)) a = true := by
        intro a ha
        simp only [decide_eq_true_eq]
        exact fun hc => hnotin (hc ▸ List.mem_reverse.mp ha)
      by_cases hx : x = '/'
      · subst hx
        rw [List.reverse_cons, takeWhile_append_of_all _ _ _ hall]
        simp [rfind_char, h, List.takeWhile_cons]
      · rw [List.reverse_cons, takeWhile_append_of_all _ _ _ hall]
        have hxne : (fun c => (c ≠ '/' : Bool)) x = true := by
          simp only [decide_eq_true_eq]
          exact hx
        simp [rfind_char, h, hx, List.takeWhile_cons, hxne]
    · have hex : ∃ a ∈ xs.reverse, (fun c => (c ≠ '/' : Bool)) a = false :=
        ⟨'/', List.mem_reverse.mpr (rfind_char_some_mem h), by simp⟩
      simp only [rfind_char, h, List.drop_succ_cons, List.reverse_cons]
      rw [takeWhile_append_of_exists_not _ _ _ hex]
      have ih2 := ih
      simp only [h] at ih2
      exact ih2

/-- The source's per-element transformation coincides with the spec's
description of it. -/
theorem username_from_entry_eq_spec (s : String) :
    username_from_entry s = spec_last_segment s :=
  congrArg String.mk (drop_rfind_eq_suffix s.data)

/-- On an all-string response array the element loop succeeds and maps every
entry to its last path segment, in order. -/
theorem usernames_from_response_map (ss : List String) :
    usernames_from_response (ss.map .str) = .ok (ss.map username_from_entry) := by
  induction ss with
  | nil => rfl
  | cons s rest ih =>
    simp only [List.map_cons, usernames_from_response, as_str, ih, Except.map]

/-- A non-string element anywhere in the response array makes the element
loop fail with `InvalidOutput`. -/
theorem usernames_from_response_err {l : List JsonValue} {j : JsonValue}
    (hj : j ∈ l) (hn : as_str j = none) :
    usernames_from_response l = .error .InvalidOutput := by
  induction l with
  | nil => cases hj
  | cons u rest ih =>
    rcases List.mem_cons.mp hj with rfl | hm
    · simp [usernames_from_response, hn]
    · simp only [usernames_from_response]
      rcases h : as_str u with _ | s
      · rfl
      · rw [ih hm]
        rfl

/-- C5: under the framed transport, `get_usernames` of an all-string array
response returns, in order, each element's substring after its last `/`
(equivalently, per the refinement lemma conjunct, the spec's longest
slash-free suffix); a non-array response, or any non-string element, gives
`InvalidOutput`. -/
theorem get_usernames_maps_paths (path : String)
    (hpath : validate_path_fails path = false) (out : Output) (resp : JsonValue)
    (hresp : gopass_ipc_result out = some (.ok resp)) :
    (∀ ss : List String, resp = .arr (ss.map .str) →
      PasswordStore.get_usernames path out =
        some (.ok (ss.map username_from_entry))) ∧
    (∀ s, username_from_entry s = spec_last_segment s) ∧
    ((∀ l, resp ≠ .arr l) →
      PasswordStore.get_usernames path out = some (.error .InvalidOutput)) ∧
    (∀ l j, resp = .arr l → j ∈ l → as_str j = none →
      PasswordStore.get_usernames path out = some (.error .InvalidOutput)) := by
  refine ⟨?_, username_from_entry_eq_spec, ?_, ?_⟩
  · rintro ss rfl
    simp [PasswordStore.get_usernames, hpath, hresp, usernames_from_response_map]
  · intro hne
    rcases resp with _ | b | n | s | elems | ms <;>
      simp [PasswordStore.get_usernames, hpath, hresp]
    exact absurd rfl (hne elems)
  · rintro l j rfl hj hn
    simp [PasswordStore.get_usernames, hpath, hresp, usernames_from_response_err hj hn]

/-- C5 witness: the response array `["a/b/user1","user2"]` yields
`["user1","user2"]`. -/
theorem get_usernames_maps_paths_witness :
    PasswordStore.get_usernames "a"
      ⟨[0, 0, 0, 0] ++ utf8Encode "[\"a/b/user1\",\"user2\"]", [], 0⟩ =
      some (.ok ["user1", "user2"]) := by
  have hresp : gopass_ipc_result
      ⟨[0, 0, 0, 0] ++ utf8Encode "[\"a/b/user1\",\"user2\"]", [], 0⟩ =
      some (.ok (.arr [.str "a/b/user1", .str "user2"])) := rfl
  exact ((get_usernames_maps_paths "a" (by decide)
      ⟨[0, 0, 0, 0] ++ utf8Encode "[\"a/b/user1\",\"user2\"]", [], 0⟩
      (.arr [.str "a/b/user1", .str "user2"]) hresp).1
    ["a/b/user1", "user2"] rfl).trans rfl

/-! ### C6 -/

/-- C6: under the framed transport, `get` returns the string value of the
response's `password` member, and fails with `InvalidOutput` when that member
is absent or not a string. -/
theorem get_returns_password_field (path : String)
    (hpath : validate_path_fails path = false) (out : Output) (resp : JsonValue)
    (hresp : gopass_ipc_result out = some (.ok resp)) :
    (∀ s, json_member resp "password" = some (.str s) →
      PasswordStore.get path out = some (.ok s)) ∧
    (json_member resp "password" = none →
      PasswordStore.get path out = some (.error .InvalidOutput)) ∧
    (∀ j, json_member resp "password" = some j → take_string j = none →
      PasswordStore.get path out = some (.error .InvalidOutput)) := by
  have hbase : PasswordStore.get path out =
      some (match take_string (json_index resp "password") with
            | some password => .ok password
            | none => .error .InvalidOutput) := by
    rcases ht : take_string (json_index resp "password") with _ | s <;>
      simp [PasswordStore.get, hpath, hresp, ht]
  refine ⟨?_, ?_, ?_⟩
  · intro s hm
    rw [hbase]
    simp [json_index, hm, take_string]
  · intro hm
    rw [hbase]
    simp [json_index, hm, take_string]
  · intro j hm hn
    rw [hbase]
    simp [json_index, hm, hn]

/-- C6 witness: a concrete framed response `{"password":"abc"}` makes `get`
return `"abc"`. -/
theorem get_returns_password_field_witness :
    PasswordStore.get "a" ⟨okStdout, [], 0⟩ = some (.ok "abc") :=
  (get_returns_password_field "a" (by decide) ⟨okStdout, [], 0⟩
      (.obj [("password", .str "abc")]) rfl).1 "abc" rfl

/-! ### C7 -/

/-- `255` masks exactly the low eight bits. -/
theorem nat_testBit_255 (i : Nat) : Nat.testBit 255 i = decide (i < 8) := by
  have h := Nat.testBit_two_pow_sub_one 8 i
  norm_num at h
  exact h

/-- Masking a natural with `255` is reduction modulo `256`. -/
theorem nat_land_255 (m : Nat) : m &&& 255 = m % 256 := by
  apply Nat.eq_of_testBit_eq
  intro i
  rw [Nat.testBit_and, nat_testBit_255, show (256 : Nat) = 2 ^ 8 from rfl,
    Nat.testBit_mod_two_pow]
  exact Bool.and_comm _ _

/-- Below `256`, subtraction from `255` is bitwise complement, i.e. xor
with `255`. -/
theorem fin256_sub_eq_xor : ∀ r : Fin 256, 255 - (r : Nat) = 255 ^^^ (r : Nat) := by
  decide

/-- `Nat.ldiff 255 m` (the negative branch of the two's-complement mask)
is `255` minus the low byte of `m`. -/
theorem nat_ldiff_255 (m : Nat) : Nat.ldiff 255 m = 255 - m % 256 := by
  apply Nat.eq_of_testBit_eq
  intro i
  rw [Nat.testBit_ldiff]
  have h : 255 - m % 256 = 255 ^^^ (m % 256) :=
    fin256_sub_eq_xor ⟨m % 256, by omega⟩
  rw [h, Nat.testBit_xor, nat_testBit_255, show (256 : Nat) = 2 ^ 8 from rfl,
    Nat.testBit_mod_two_pow]
  cases h1 : decide (i < 8) <;> cases h2 : m.testBit i <;> simp [h1, h2]

/-- On any integer (two's complement), masking with `255` is the Euclidean
remainder modulo `256`. -/
theorem int_land_255 (q : Int) : Int.land q 255 = q % 256 := by
  cases q with
  | ofNat m =>
    have h1 : Int.land (Int.ofNat m) 255 = Int.ofNat (m &&& 255) := rfl
    rw [h1, nat_land_255]
    rw [show Int.ofNat (m % 256) = ((m % 256 : ℕ) : ℤ) from rfl,
      show Int.ofNat m = ((m : ℕ) : ℤ) from rfl]
    push_cast
    omega
  | negSucc m =>
    have h1 : Int.land (Int.negSucc m) 255 = Int.ofNat (Nat.ldiff 255 m) := rfl
    rw [h1, nat_ldiff_255, Int.negSucc_eq]
    have hle : m % 256 ≤ 255 := by omega
    rw [show Int.ofNat (255 - m % 256) = ((255 - m % 256 : ℕ) : ℤ) from rfl]
    push_cast [hle]
    omega

/-- The arithmetic right shift on any integer is Euclidean division by the
corresponding power of two. -/
theorem int_shiftRight_eq (q : Int) (k : Nat) : q >>> (k : Int) = q / (2 ^ k : ℤ) := by
  cases q with
  | ofNat m =>
    rw [show (Int.ofNat m) = (m : ℤ) from rfl, Int.shiftRight_coe_nat,
      Nat.shiftRight_eq_div_pow, Int.ofNat_ediv]
    norm_cast
  | negSucc m =>
    rw [Int.shiftRight_negSucc, Nat.shiftRight_eq_div_pow]
    have hb : (0 : ℤ) < 2 ^ k := by positivity
    rw [Int.negSucc_ediv m hb, Int.negSucc_eq]
    have h2 : ((m / 2 ^ k : ℕ) : ℤ) = (m : ℤ).ediv ((2 ^ k : ℕ) : ℤ) :=
      Int.ofNat_ediv m (2 ^ k)
    have h3 : (((2 ^ k : ℕ) : ℤ)) = (2 ^ k : ℤ) := by push_cast; ring
    rw [h2, h3]

/-- `i32_to_bytes` produces the four little-endian base-256 digits of the
argument's 32-bit two's-complement bit pattern. -/
theorem i32_to_bytes_eq_le4 (q : Int) (u : Nat)
    (hu : (u : ℤ) = q % 4294967296) : i32_to_bytes q = le4_bytes u := by
  have h8 : q >>> (8 : Int) = q / 256 := by
    have h := int_shiftRight_eq q 8
    norm_num at h
    exact h
  have h16 : q >>> (16 : Int) = q / 65536 := by
    have h := int_shiftRight_eq q 16
    norm_num at h
    exact h
  have h24 : q >>> (24 : Int) = q / 16777216 := by
    have h := int_shiftRight_eq q 24
    norm_num at h
    exact h
  show [(Int.land q 255).toNat, (Int.land (q >>> (8 : Int)) 255).toNat,
        (Int.land (q >>> (16 : Int)) 255).toNat,
        (Int.land (q >>> (24 : Int)) 255).toNat] = le4_bytes u
  rw [h8, h16, h24, int_land_255, int_land_255, int_land_255, int_land_255]
  simp only [le4_bytes, List.cons.injEq, and_true]
  refine ⟨by omega, by omega, by omega, by omega⟩

/-- The `usize → i32` wrap preserves the 32-bit bit pattern. -/
theorem usize_as_i32_emod (n : Nat) :
    ((n % 2 ^ 32 : ℕ) : ℤ) = usize_as_i32 n % 4294967296 := by
  unfold usize_as_i32
  split <;> omega

/-- C7: each framed request writes exactly four little-endian length bytes —
the payload's byte length modulo `2^32` — followed immediately by the payload
bytes (no trailing newline); and on every `i32`, `i32_to_bytes` is the
little-endian encoding of the two's-complement bit pattern. -/
theorem framed_write_layout (q : JsonValue) (n : Int)
    (hlo : -(2 ^ 31) ≤ n) (hhi : n < 2 ^ 31) :
    gopass_ipc_write q =
      le4_bytes ((utf8Encode (dump q)).length % 2 ^ 32) ++ utf8Encode (dump q) ∧
    i32_to_bytes n = le4_bytes ((n % 2 ^ 32).toNat) := by
  constructor
  · show i32_to_bytes (usize_as_i32 (utf8Encode (dump q)).length) ++
        utf8Encode (dump q) = _
    rw [i32_to_bytes_eq_le4 (usize_as_i32 (utf8Encode (dump q)).length)
      ((utf8Encode (dump q)).length % 2 ^ 32)
      (usize_as_i32_emod (utf8Encode (dump q)).length)]
  · refine i32_to_bytes_eq_le4 n ((n % 2 ^ 32).toNat) ?_
    have h : (0 : ℤ) ≤ n % 2 ^ 32 := Int.emod_nonneg n (by norm_num)
    rw [Int.toNat_of_nonneg h]
    norm_num

/-- C7 witness: the `getLogin` request for path `"x"` and the `i32` value
`300`. -/
theorem framed_write_layout_witness :
    gopass_ipc_write (getLogin_query "x") =
      le4_bytes ((utf8Encode (dump (getLogin_query "x"))).length % 2 ^ 32) ++
        utf8Encode (dump (getLogin_query "x")) ∧
    i32_to_bytes 300 = le4_bytes (((300 : Int) % 2 ^ 32).toNat) :=
  framed_write_layout (getLogin_query "x") 300 (by norm_num) (by norm_num)

/-! ### C8 -/

/-- C8: with an empty error stream, the framed decode drops exactly the first
four output bytes whatever they are (the result is insensitive to their
content), parses the remainder, and surfaces a parse failure as a `Json`
error; in particular four junk bytes followed by `{"password":"abc"}` make
`get` return `"abc"`. -/
theorem framed_decode_skips_four_bytes (junk rest : List Nat) (st : Int)
    (hjunk : junk.length = 4) :
    (∀ junk2 : List Nat, junk2.length = 4 →
      gopass_ipc_result ⟨junk ++ rest, [], st⟩ =
        gopass_ipc_result ⟨junk2 ++ rest, [], st⟩) ∧
    (∀ s e, utf8Decode rest = some s → json_parse s = .error e →
      gopass_ipc_result ⟨junk ++ rest, [], st⟩ = some (.error (.Json e))) ∧
    (∀ s v, utf8Decode rest = some s → json_parse s = .ok v →
      gopass_ipc_result ⟨junk ++ rest, [], st⟩ = some (.ok v)) ∧
    (rest = utf8Encode "\x7b\"password\":\"abc\"\x7d" →
      PasswordStore.get "x" ⟨junk ++ rest, [], st⟩ = some (.ok "abc")) := by
  have hstderr : utf8Decode ([] : List Nat) = some "" := rfl
  have hemp : ("" : String).isEmpty = true := rfl
  have hbase : ∀ junk2 : List Nat, junk2.length = 4 →
      gopass_ipc_result ⟨junk2 ++ rest, [], st⟩ =
        match utf8Decode rest with
        | none => some (.error .Utf8)
        | some text =>
          match json_parse text with
          | .ok v => some (.ok v)
          | .error e => some (.error (.Json e)) := by
    intro junk2 hj2
    have hlen : ¬ (junk2 ++ rest).length < MSG_SIZE := by
      simp only [List.length_append, hj2, MSG_SIZE]
      omega
    have hdrop : (junk2 ++ rest).drop MSG_SIZE = rest := by
      rw [show MSG_SIZE = junk2.length from hj2.symm]
      exact List.drop_left junk2 rest
    unfold gopass_ipc_result
    rw [hstderr]
    simp only [hemp, if_true, hlen, if_false, hdrop]
  refine ⟨?_, ?_, ?_, ?_⟩
  · intro junk2 hj2
    rw [hbase junk hjunk, hbase junk2 hj2]
  · intro s e hs hp
    simp only [hbase junk hjunk, hs, hp]
  · intro s v hs hp
    simp only [hbase junk hjunk, hs, hp]
  · intro hrest
    subst hrest
    have hresp : gopass_ipc_result
        ⟨junk ++ utf8Encode "\x7b\"password\":\"abc\"\x7d", [], st⟩ =
        some (.ok (.obj [("password", .str "abc")])) := by
      rw [hbase junk hjunk]
      rfl
    simp only [PasswordStore.get, show validate_path_fails "x" = false from rfl,
      Bool.false_eq_true, if_false, hresp]
    rfl

/-- C8 witness: four junk bytes `[9, 8, 7, 6]` before `{"password":"abc"}`. -/
theorem framed_decode_skips_four_bytes_witness :
    (∀ junk2 : List Nat, junk2.length = 4 →
      gopass_ipc_result ⟨[9, 8, 7, 6] ++ utf8Encode "\x7b\"password\":\"abc\"\x7d", [], 0⟩ =
        gopass_ipc_result ⟨junk2 ++ utf8Encode "\x7b\"password\":\"abc\"\x7d", [], 0⟩) ∧
    (∀ s e, utf8Decode (utf8Encode "\x7b\"password\":\"abc\"\x7d") = some s →
      json_parse s = .error e →
      gopass_ipc_result ⟨[9, 8, 7, 6] ++ utf8Encode "\x7b\"password\":\"abc\"\x7d", [], 0⟩ =
        some (.error (.Json e))) ∧
    (∀ s v, utf8Decode (utf8Encode "\x7b\"password\":\"abc\"\x7d") = some s →
      json_parse s = .ok v →
      gopass_ipc_result ⟨[9, 8, 7, 6] ++ utf8Encode "\x7b\"password\":\"abc\"\x7d", [], 0⟩ =
        some (.ok v)) ∧
    (utf8Encode "\x7b\"password\":\"abc\"\x7d" = utf8Encode "\x7b\"password\":\"abc\"\x7d" →
      PasswordStore.get "x"
        ⟨[9, 8, 7, 6] ++ utf8Encode "\x7b\"password\":\"abc\"\x7d", [], 0⟩ =
        some (.ok "abc")) :=
  framed_decode_skips_four_bytes [9, 8, 7, 6]
    (utf8Encode "\x7b\"password\":\"abc\"\x7d") 0 (by decide)

/-! ### C9 -/

/-- C9 counterexample: an outcome with an EMPTY error stream on which `remove`
nevertheless fails — the output stream `[255]` is not valid UTF-8, so the call
returns `FromUtf8` — refuting "success if and only if the error stream is
empty". -/
theorem remove_success_iff_empty_stderr_counterexample :
    PasswordStore.remove "a" ⟨[255], [], 0⟩ = .error .FromUtf8 ∧
    (⟨[255], [], 0⟩ : Output).stderr = [] ∧
    PasswordStore.remove "a" ⟨[255], [], 0⟩ ≠ .ok () := by
  refine ⟨rfl, rfl, ?_⟩
  intro h
  rw [show PasswordStore.remove "a" ⟨[255], [], 0⟩ = Except.error Error.FromUtf8
    from rfl] at h
  exact Except.noConfusion h

/-- C9 (amended): `remove` passes `rm`, the force flag and the literal path
as the sole positional argument in one spawn, and succeeds iff the error
stream is empty AND the output stream is valid UTF-8. -/
theorem remove_force_flag_success_condition (path : String)
    (hpath : validate_path_fails path = false) :
    remove_spawns path = 1 ∧
    remove_argv path = ["rm", "-f", path] ∧
    ∀ (out : Output) (e : String), utf8Decode out.stderr = some e →
      (PasswordStore.remove path out = .ok () ↔
        (e = "" ∧ ∃ s, utf8Decode out.stdout = some s)) := by
  refine ⟨by simp [remove_spawns, hpath], rfl, ?_⟩
  intro out e hdec
  simp only [PasswordStore.remove, hpath, Bool.false_eq_true, if_false]
  unfold exec_pass_result
  rw [hdec]
  by_cases he : e = ""
  · subst he
    simp only [show ("" : String).isEmpty = true from rfl, if_true]
    rcases hs : utf8Decode out.stdout with _ | s
    · simp [hs]
    · simp [hs]
  · simp only [isEmpty_false_of_ne he, Bool.false_eq_true, if_false]
    simp [he]

/-- C9 (amended) witness: for path `"a"`, check the outcome
`(stdout := "ok", stderr := empty)`. -/
theorem remove_force_flag_success_condition_witness :
    remove_spawns "a" = 1 ∧
    remove_argv "a" = ["rm", "-f", "a"] ∧
    ∀ (out : Output) (e : String), utf8Decode out.stderr = some e →
      (PasswordStore.remove "a" out = .ok () ↔
        (e = "" ∧ ∃ s, utf8Decode out.stdout = some s)) :=
  remove_force_flag_success_condition "a" (by decide)

/-! ### C10 -/

/-- C10: with an empty error stream, the framed decode is undefined (the Rust
slice `stdout[MSG_SIZE..]` panics, modelled as `none`) exactly when the
captured output stream holds fewer than `MSG_SIZE = 4` bytes; with at least 4
bytes it always produces a typed result. -/
theorem framed_decode_panics_iff_short_stdout (stdoutB : List Nat) (st : Int) :
    gopass_ipc_result ⟨stdoutB, [], st⟩ = none ↔ stdoutB.length < MSG_SIZE := by
  have hstderr : utf8Decode ([] : List Nat) = some "" := rfl
  unfold gopass_ipc_result
  rw [hstderr]
  simp only [show ("" : String).isEmpty = true from rfl, if_true]
  rcases Nat.lt_or_ge stdoutB.length MSG_SIZE with h | h
  · simp [h]
  · have h2 : ¬ stdoutB.length < MSG_SIZE := by omega
    simp only [h2, if_false]
    rcases hd : utf8Decode (stdoutB.drop MSG_SIZE) with _ | s
    · simp [hd, h2]
    · rcases hp : json_parse s with e | v <;> simp [hd, hp, h2]

end PassStore
